import Mathlib

/-!
Shallow embedding of `ros2_clang_tidy/main.py` (yhisaki/ros2-clang-tidy).

Paths are modelled as lists of path components (`List String`), already
resolved, so `pathlib.Path.resolve` is the identity and
`Path.is_relative_to` is component-wise list-prefix.  Strings keep Python
semantics where it matters: `str.count` counts non-overlapping occurrences
left to right, `str.lower` maps `Char.toLower` over the characters, and
`pathlib.PurePath.suffix` returns the dotted extension of the last
component (empty when the only dot is leading or trailing).
-/

namespace RosClangTidy

/-- Python `str.lower` (ASCII-faithful): lower-case every character. -/
def strLower (s : String) : String := ⟨s.data.map Char.toLower⟩

/-- Scanner for Python `str.count`: counts non-overlapping occurrences of
`pat`, moving past a whole match once found (`skip` characters remain to be
consumed from the current match). -/
def countOccAux (pat : List Char) : Nat → List Char → Nat
  | _, [] => 0
  | n + 1, _ :: rest => countOccAux pat n rest
  | 0, c :: rest =>
    if pat.isPrefixOf (c :: rest) && !pat.isEmpty then
      1 + countOccAux pat (pat.length - 1) rest
    else
      countOccAux pat 0 rest

/-- Python `s.count(pat)`: number of non-overlapping occurrences of `pat`
in `s`, scanning left to right. -/
def strCount (s : String) (pat : String) : Nat := countOccAux pat.data 0 s.data

/-- Index of the last `'.'` in a character list (CPython `str.rfind('.')`),
`none` when absent; `i` is the index of the head of the list. -/
def rfindDotAux : List Char → Nat → Option Nat
  | [], _ => none
  | c :: rest, i =>
    match rfindDotAux rest (i + 1) with
    | some j => some j
    | none => if c == '.' then some i else none

/-- CPython `pathlib.PurePath.suffix` on a file name: `name[i:]` for the
last dot index `i` when `0 < i < len(name) - 1`, otherwise `""`. -/
def pySuffix (name : String) : String :=
  let cs := name.data
  match rfindDotAux cs 0 with
  | some i => if 0 < i && i < cs.length - 1 then ⟨cs.drop i⟩ else ""
  | none => ""

/-- Extension test of `find_cpp_files` (main.py line 89):
`file_path.suffix.lower() in [".cpp", ".cc", ".c"]`. -/
def extAllowed (name : String) : Bool :=
  [".cpp", ".cc", ".c"].contains (strLower (pySuffix name))

/-! A directory tree: plain file names in the directory, then its named
subdirectories.  `Subdirs` is a chained list so that the tree admits plain
structural recursion. -/
mutual
inductive Dir : Type where
  | mk : List String → Subdirs → Dir
  deriving DecidableEq
inductive Subdirs : Type where
  | nil : Subdirs
  | cons : String → Dir → Subdirs → Subdirs
  deriving DecidableEq
end

/-! Model of `find_cpp_files` (main.py lines 68-92): `os.walk` from the
package root, at each directory pruning subdirectories whose name
lower-cases to `"test"` before descending (`dirs[:] = [d for d in dirs if
d.lower() != "test"]`), and collecting files whose suffix passes
`extAllowed`.  Matching files of a directory are emitted before the
contents of its subdirectories, as `os.walk` yields top-down. -/
mutual
def find_cpp_files (root : List String) : Dir → List (List String)
  | Dir.mk files subdirs =>
    (files.filter (fun name => extAllowed name)).map (fun name => root ++ [name])
      ++ walkSubdirs root subdirs
def walkSubdirs (root : List String) : Subdirs → List (List String)
  | Subdirs.nil => []
  | Subdirs.cons name d rest =>
    (if strLower name == "test" then [] else find_cpp_files (root ++ [name]) d)
      ++ walkSubdirs root rest
end

/-! Observer on the tree: the directory reached by the chain `ns` of
subdirectory names contains a plain file named `f`. -/
mutual
def Dir.hasFileAt : Dir → List String → String → Bool
  | Dir.mk files _, [], f => files.contains f
  | Dir.mk _ subdirs, n :: ns, f => Subdirs.hasFileAt subdirs n ns f
def Subdirs.hasFileAt : Subdirs → String → List String → String → Bool
  | Subdirs.nil, _, _, _ => false
  | Subdirs.cons m d rest, n, ns, f =>
    (m == n && Dir.hasFileAt d ns f) || Subdirs.hasFileAt rest n ns f
end

/-- One entry of a decoded `compile_commands.json` array; only the
`"file"` key is read by the source. -/
structure CompileEntry where
  file : List String
  deriving DecidableEq

/-- Model of `filter_cpp_files_by_compile_commands` (main.py lines
95-104), taking the decoded JSON array instead of reading it from disk:
`builded_files = [Path(entry["file"]) for entry in ...]` and then the list
comprehension `[path for path in cpp_files if path in builded_files]`. -/
def filter_cpp_files_by_compile_commands (cpp_files : List (List String))
    (compile_commands : List CompileEntry) : List (List String) :=
  let builded_files := compile_commands.map CompileEntry.file
  cpp_files.filter (fun path => builded_files.contains path)

/-- Scanner state (main.py lines 107-124): insertion-ordered maps from
package name to resolved package root and to candidate files, modelled as
association lists in insertion order. -/
structure ClangTidyPackageScanner where
  package_paths : List (String × List String)
  package_cpp_files : List (String × List (List String))
  deriving DecidableEq

/-- Model of `filter_packages_by_base_path` (main.py lines 46-65): keep
packages whose resolved path is relative to the resolved base directory
(`Path.is_relative_to` = component-wise prefix on resolved paths). -/
def filter_packages_by_base_path (packages : List (String × List String))
    (base_path : List String) : List (String × List String) :=
  packages.filter (fun np => base_path.isPrefixOf np.2)

/-- Model of `ClangTidyPackageScanner.apply_base_path_filter` (main.py
lines 126-138): filter `package_paths` by the base path, then keep only
the `package_cpp_files` entries whose key is still in `package_paths`. -/
def ClangTidyPackageScanner.apply_base_path_filter (s : ClangTidyPackageScanner)
    (base_path : List String) : ClangTidyPackageScanner :=
  let package_paths := filter_packages_by_base_path s.package_paths base_path
  { package_paths := package_paths,
    package_cpp_files := s.package_cpp_files.filter
      (fun nf => package_paths.any (fun np => np.1 == nf.1)) }

/-- Model of `ClangTidyPackageScanner.select_packages` (main.py lines
140-150): drop every package whose name is not in `selected_packages`. -/
def ClangTidyPackageScanner.select_packages (s : ClangTidyPackageScanner)
    (selected_packages : List String) : ClangTidyPackageScanner :=
  { package_paths := s.package_paths.filter (fun np => selected_packages.contains np.1),
    package_cpp_files :=
      s.package_cpp_files.filter (fun nf => selected_packages.contains nf.1) }

/-- Model of `ClangTidyPackageScanner.list_available_packages` (main.py
lines 152-159). -/
def ClangTidyPackageScanner.list_available_packages
    (s : ClangTidyPackageScanner) : List String :=
  s.package_paths.map Prod.fst

/-- Model of `ClangTidyPackageScanner.__init__` (main.py lines 112-124):
`pkgs` is the discovery output (`get_all_packages`) joined with the
filesystem tree under each package root, and `manifests` gives each
package's decoded `compile_commands.json`.  A package is added only when
`find_cpp_files` returns a non-empty list and the manifest filter leaves a
non-empty list. -/
def scan_step (manifests : String → List CompileEntry)
    (s : ClangTidyPackageScanner) (entry : String × List String × Dir) :
    ClangTidyPackageScanner :=
  let cpp_files := find_cpp_files entry.2.1 entry.2.2
  if cpp_files.isEmpty then s
  else
    let filtered := filter_cpp_files_by_compile_commands cpp_files (manifests entry.1)
    if filtered.isEmpty then s
    else
      { package_paths := s.package_paths ++ [(entry.1, entry.2.1)],
        package_cpp_files := s.package_cpp_files ++ [(entry.1, filtered)] }

/-- The whole discovery loop of `ClangTidyPackageScanner.__init__`. -/
def scanner_scan (pkgs : List (String × List String × Dir))
    (manifests : String → List CompileEntry) : ClangTidyPackageScanner :=
  pkgs.foldl (scan_step manifests) ⟨[], []⟩

/-- Python `subprocess.CompletedProcess` as used by the source: argument
vector, exit status, captured standard output and standard error. -/
structure CompletedProcess where
  args : List String
  returncode : Int
  stdout : String
  stderr : String
  deriving DecidableEq

/-- Model of `parse_result` (main.py lines 212-213):
`f"Command: {' '.join(result.args)}\n{result.stderr}\n{result.stdout}\n"`. -/
def parse_result (result : CompletedProcess) : String :=
  "Command: " ++ String.intercalate " " result.args ++ "\n"
    ++ result.stderr ++ "\n" ++ result.stdout ++ "\n"

/-- Python truthiness of an optional string argument (argparse default
`None`): truthy exactly when present and non-empty. -/
def optSet (o : Option String) : Bool := !(o.getD "").isEmpty

/-- Model of `build_clang_tidy_command` (main.py lines 162-209), appending
the argument groups in source order; each optional flag is guarded by the
Python truthiness of its option. -/
def build_clang_tidy_command (clang_tidy_cmd package_name package_path source_file : String)
    (config config_file : Option String) (fix_errors : Bool)
    (export_fixes_path : Option String) (use_color : Bool) : List String :=
  [clang_tidy_cmd]
    ++ ["-p", "build/" ++ package_name]
    ++ ["--header-filter=" ++ package_path ++ "/.*"]
    ++ (if optSet config then ["--config=" ++ config.getD ""] else [])
    ++ (if optSet config_file then ["--config-file=" ++ config_file.getD ""] else [])
    ++ (if fix_errors then ["--fix-errors"] else [])
    ++ (if optSet export_fixes_path then ["--export-fixes=" ++ export_fixes_path.getD ""] else [])
    ++ (if use_color then ["--use-color"] else [])
    ++ [source_file]

/-- Model of `execute_command` (main.py lines 251-290).  `run` stands for
`subprocess.run` with `check=False`: a launched process yields `Except.ok`
with its `CompletedProcess` (whatever its exit status), and a launch
failure yields `Except.error` with the exception message.  The `except`
branch synthesizes `CompletedProcess(args=cmd, returncode=1, stdout="",
stderr=str(error))` instead of raising.  The per-package log-file append
is an I/O side effect not modelled here. -/
def execute_command (run : List String → Except String CompletedProcess)
    (cmd_info : String × List String) : String × CompletedProcess :=
  match run cmd_info.2 with
  | Except.ok result => (cmd_info.1, result)
  | Except.error err => (cmd_info.1, ⟨cmd_info.2, 1, "", err⟩)

/-- Model of `executor.map(execute_command, clang_tidy_commands)` (main.py
lines 293-300): every command is dispatched and the results keep input
order. -/
def run_all (run : List String → Except String CompletedProcess)
    (clang_tidy_commands : List (String × List String)) :
    List (String × CompletedProcess) :=
  clang_tidy_commands.map (execute_command run)

/-- Per-package error tally (main.py lines 309-311): insert the key with 0
when absent, then add the result's error count. -/
def add_package_error (m : List (String × Nat)) (pkg : String) (n : Nat) :
    List (String × Nat) :=
  if m.any (fun e => e.1 == pkg) then
    m.map (fun e => if e.1 == pkg then (e.1, e.2 + n) else e)
  else
    m ++ [(pkg, n)]

/-- The per-result summary line (main.py line 317):
`f"{package_name}: {error_count} errors, {warning_count} warnings"`. -/
def summary_line (package_name : String) (error_count warning_count : Nat) : String :=
  package_name ++ ": " ++ toString error_count ++ " errors, "
    ++ toString warning_count ++ " warnings"

/-- Accumulator of the result-draining loop: running totals, the
per-package error tally, and the lines printed so far in order. -/
structure DrainState where
  total_errors : Nat
  total_warnings : Nat
  package_errors : List (String × Nat)
  printed : List String
  deriving DecidableEq

/-- One iteration of the result loop (main.py lines 304-317): count
`"error: "` and `"warning: "` in the captured standard output, accumulate
totals, print `parse_result` when `output_all` is set or some captured
stream is non-empty, and print the summary line when `output_all` is set
or a count is non-zero. -/
def drain_step (output_all : Bool) (st : DrainState)
    (pr : String × CompletedProcess) : DrainState :=
  let package_name := pr.1
  let result := pr.2
  let error_count := strCount result.stdout "error: "
  let warning_count := strCount result.stdout "warning: "
  let printed₁ :=
    if output_all || !result.stdout.isEmpty || !result.stderr.isEmpty then
      st.printed ++ [parse_result result]
    else
      st.printed
  let printed₂ :=
    if output_all || decide (0 < error_count) || decide (0 < warning_count) then
      printed₁ ++ [summary_line package_name error_count warning_count]
    else
      printed₁
  { total_errors := st.total_errors + error_count,
    total_warnings := st.total_warnings + warning_count,
    package_errors := add_package_error st.package_errors package_name error_count,
    printed := printed₂ }

/-- The whole result-draining loop of `process_packages` (main.py lines
302-319), starting from zero totals and nothing printed. -/
def drain_results (output_all : Bool)
    (results : List (String × CompletedProcess)) : DrainState :=
  results.foldl (drain_step output_all) ⟨0, 0, [], []⟩

/-- Exit status of a run that completes package processing (main.py lines
420-427): `sys.exit(1)` when the error total is positive, otherwise
`main` returns and the process exits 0. -/
def main_exit_code (output_all : Bool)
    (results : List (String × CompletedProcess)) : Nat :=
  if 0 < (drain_results output_all results).total_errors then 1 else 0

/-- Error total of a result set: summed `"error: "` count over the
captured standard outputs. -/
def error_total (results : List (String × CompletedProcess)) : Nat :=
  (results.map (fun pr => strCount pr.2.stdout "error: ")).sum

/-- Warning total of a result set: summed `"warning: "` count over the
captured standard outputs. -/
def warning_total (results : List (String × CompletedProcess)) : Nat :=
  (results.map (fun pr => strCount pr.2.stdout "warning: ")).sum

/-- Lines the result loop emits for one result, in order: the
`parse_result` block when `output_all` is set or some captured stream is
non-empty, then the summary line when `output_all` is set or a count is
non-zero. -/
def result_lines (output_all : Bool) (pr : String × CompletedProcess) : List String :=
  let error_count := strCount pr.2.stdout "error: "
  let warning_count := strCount pr.2.stdout "warning: "
  (if output_all || !pr.2.stdout.isEmpty || !pr.2.stderr.isEmpty then
      [parse_result pr.2]
    else [])
    ++ (if output_all || decide (0 < error_count) || decide (0 < warning_count) then
      [summary_line pr.1 error_count warning_count]
    else [])

end RosClangTidy

namespace RosClangTidy

/-- Counting in an empty captured output gives zero. -/
theorem strCount_empty (pat : String) : strCount "" pat = 0 := rfl

/-- One drain step, written as an explicit state update: totals grow by the
result's counts and the printed lines grow by `result_lines`. -/
theorem drain_step_spec (output_all : Bool) (st : DrainState)
    (pr : String × CompletedProcess) :
    drain_step output_all st pr =
      ⟨st.total_errors + strCount pr.2.stdout "error: ",
       st.total_warnings + strCount pr.2.stdout "warning: ",
       add_package_error st.package_errors pr.1 (strCount pr.2.stdout "error: "),
       st.printed ++ result_lines output_all pr⟩ := by
  simp only [drain_step, result_lines]
  split
  · split <;> simp
  · split <;> simp

/-- The drain fold from any starting state: totals add the result totals
and printed lines are extended by the per-result lines in order. -/
theorem drain_foldl_spec (output_all : Bool)
    (results : List (String × CompletedProcess)) (st : DrainState) :
    (results.foldl (drain_step output_all) st).total_errors
        = st.total_errors + error_total results ∧
    (results.foldl (drain_step output_all) st).total_warnings
        = st.total_warnings + warning_total results ∧
    (results.foldl (drain_step output_all) st).printed
        = st.printed ++ results.flatMap (result_lines output_all) := by
  induction results generalizing st with
  | nil => simp [error_total, warning_total]
  | cons pr rest ih =>
    have h := ih (drain_step output_all st pr)
    rw [drain_step_spec] at h
    simp only [error_total, warning_total, List.map_cons, List.sum_cons,
      List.flatMap_cons, List.foldl_cons] at h ⊢
    rw [drain_step_spec]
    refine ⟨?_, ?_, ?_⟩
    · rw [h.1]; omega
    · rw [h.2.1]; omega
    · rw [h.2.2]; simp

/-- The error total accumulated by the drain loop. -/
theorem drain_results_total_errors (output_all : Bool)
    (results : List (String × CompletedProcess)) :
    (drain_results output_all results).total_errors = error_total results := by
  have h := (drain_foldl_spec output_all results ⟨0, 0, [], []⟩).1
  simpa [drain_results] using h

/-- The warning total accumulated by the drain loop. -/
theorem drain_results_total_warnings (output_all : Bool)
    (results : List (String × CompletedProcess)) :
    (drain_results output_all results).total_warnings = warning_total results := by
  have h := (drain_foldl_spec output_all results ⟨0, 0, [], []⟩).2.1
  simpa [drain_results] using h

/-- Everything the drain loop prints, as the concatenation of the
per-result lines. -/
theorem drain_results_printed (output_all : Bool)
    (results : List (String × CompletedProcess)) :
    (drain_results output_all results).printed
      = results.flatMap (result_lines output_all) := by
  have h := (drain_foldl_spec output_all results ⟨0, 0, [], []⟩).2.2
  simpa [drain_results] using h

/-- C1: for every run that completes package processing, the final exit
status is non-zero exactly when the global error total (summed `"error: "`
count over the captured standard outputs of all results) is non-zero; a
zero error total exits 0 whatever the warning total, and a non-zero error
total exits 1. -/
theorem exit_status_iff_error_total (output_all : Bool)
    (results : List (String × CompletedProcess)) :
    (main_exit_code output_all results ≠ 0 ↔ error_total results ≠ 0) ∧
    (error_total results = 0 → main_exit_code output_all results = 0) ∧
    (error_total results ≠ 0 → main_exit_code output_all results = 1) := by
  unfold main_exit_code
  rw [drain_results_total_errors]
  refine ⟨?_, ?_, ?_⟩ <;> split <;> omega

/-- Witness for C1: one result whose output holds one `"error: "` marker
makes the run exit 1. -/
theorem exit_status_iff_error_total_witness :
    error_total [("pkgA", ⟨["clang-tidy", "a.cpp"], 1, "error: x", ""⟩)] ≠ 0 ∧
    main_exit_code false [("pkgA", ⟨["clang-tidy", "a.cpp"], 1, "error: x", ""⟩)] = 1 :=
  ⟨by decide, (exit_status_iff_error_total false _).2.2 (by decide)⟩

/-- C5: a launch failure is recovered locally into a synthetic result with
exit status 1, empty standard output and the failure message as its error
stream; a process that launches is passed through unchanged whatever its
exit status; and every dispatched command produces exactly one result in
input position, so one failure never prevents the sibling invocations. -/
theorem execute_command_recovers_launch_failure
    (run : List String → Except String CompletedProcess) :
    (∀ package_name cmd msg, run cmd = Except.error msg →
        execute_command run (package_name, cmd) = (package_name, ⟨cmd, 1, "", msg⟩)) ∧
    (∀ package_name cmd msg, run cmd = Except.error msg →
        (execute_command run (package_name, cmd)).2.returncode ≠ 0 ∧
        (execute_command run (package_name, cmd)).2.stderr = msg) ∧
    (∀ package_name cmd result, run cmd = Except.ok result →
        execute_command run (package_name, cmd) = (package_name, result)) ∧
    (∀ clang_tidy_commands (i : Nat),
        (run_all run clang_tidy_commands)[i]?
          = (clang_tidy_commands[i]?).map (execute_command run)) := by
  refine ⟨?_, ?_, ?_, ?_⟩
  · intro package_name cmd msg h
    simp [execute_command, h]
  · intro package_name cmd msg h
    simp [execute_command, h]
  · intro package_name cmd result h
    simp [execute_command, h]
  · intro clang_tidy_commands i
    simp [run_all]

/-- Witness for C5: a `run` that always fails to launch yields the
synthetic failed result for a concrete invocation. -/
theorem execute_command_recovers_launch_failure_witness :
    (fun _ : List String => (Except.error "clang-tidy: not found" : Except String CompletedProcess))
        ["clang-tidy", "a.cpp"] = Except.error "clang-tidy: not found" ∧
    execute_command (fun _ => Except.error "clang-tidy: not found")
        ("pkgA", ["clang-tidy", "a.cpp"])
      = ("pkgA", ⟨["clang-tidy", "a.cpp"], 1, "", "clang-tidy: not found"⟩) :=
  ⟨rfl,
    (execute_command_recovers_launch_failure
      (fun _ => Except.error "clang-tidy: not found")).1
      "pkgA" ["clang-tidy", "a.cpp"] "clang-tidy: not found" rfl⟩

/-- C10: a synthesized launch-failure result has empty standard output,
markers are counted in standard output only, so launch failures contribute
zero to every total, and a run in which every invocation fails to launch
exits 0. -/
theorem all_launch_failures_exit_zero
    (run : List String → Except String CompletedProcess) (output_all : Bool)
    (clang_tidy_commands : List (String × List String))
    (h : ∀ c ∈ clang_tidy_commands, ∃ msg, run c.2 = Except.error msg) :
    (∀ pr ∈ run_all run clang_tidy_commands, pr.2.stdout = "" ∧
        strCount pr.2.stdout "error: " = 0 ∧ strCount pr.2.stdout "warning: " = 0) ∧
    error_total (run_all run clang_tidy_commands) = 0 ∧
    warning_total (run_all run clang_tidy_commands) = 0 ∧
    main_exit_code output_all (run_all run clang_tidy_commands) = 0 := by
  have hout : ∀ pr ∈ run_all run clang_tidy_commands, pr.2.stdout = "" := by
    intro pr hpr
    simp only [run_all, List.mem_map] at hpr
    obtain ⟨c, hc, rfl⟩ := hpr
    obtain ⟨msg, hmsg⟩ := h c hc
    simp [execute_command, hmsg]
  have herr : error_total (run_all run clang_tidy_commands) = 0 := by
    unfold error_total
    refine List.sum_eq_zero ?_
    intro x hx
    simp only [List.mem_map] at hx
    obtain ⟨pr, hpr, rfl⟩ := hx
    rw [hout pr hpr]
    exact strCount_empty _
  have hwarn : warning_total (run_all run clang_tidy_commands) = 0 := by
    unfold warning_total
    refine List.sum_eq_zero ?_
    intro x hx
    simp only [List.mem_map] at hx
    obtain ⟨pr, hpr, rfl⟩ := hx
    rw [hout pr hpr]
    exact strCount_empty _
  refine ⟨?_, herr, hwarn, ?_⟩
  · intro pr hpr
    refine ⟨hout pr hpr, ?_, ?_⟩ <;> rw [hout pr hpr] <;> exact strCount_empty _
  · unfold main_exit_code
    rw [drain_results_total_errors, herr]
    simp

/-- Witness for C10: two invocations that both fail to launch give a run
that exits 0. -/
theorem all_launch_failures_exit_zero_witness :
    (∀ c ∈ [("pkgA", ["clang-tidy", "a.cpp"]), ("pkgB", ["clang-tidy", "b.cpp"])],
      ∃ msg, (fun _ : List String =>
        (Except.error "no such binary" : Except String CompletedProcess)) c.2
          = Except.error msg) ∧
    main_exit_code true (run_all (fun _ => Except.error "no such binary")
        [("pkgA", ["clang-tidy", "a.cpp"]), ("pkgB", ["clang-tidy", "b.cpp"])]) = 0 :=
  ⟨fun _ _ => ⟨"no such binary", rfl⟩,
    (all_launch_failures_exit_zero (fun _ => Except.error "no such binary") true
      [("pkgA", ["clang-tidy", "a.cpp"]), ("pkgB", ["clang-tidy", "b.cpp"])]
      (fun _ _ => ⟨"no such binary", rfl⟩)).2.2.2⟩

/-- C8: the manifest filter returns exactly the subsequence of its input
whose paths appear in the manifest's file list: an order-preserving
sublist of the input whose members are exactly the input paths listed in
the manifest. -/
theorem filter_compile_commands_subsequence (cpp_files : List (List String))
    (compile_commands : List CompileEntry) :
    List.Sublist (filter_cpp_files_by_compile_commands cpp_files compile_commands)
      cpp_files ∧
    ∀ path, path ∈ filter_cpp_files_by_compile_commands cpp_files compile_commands ↔
      path ∈ cpp_files ∧ path ∈ compile_commands.map CompileEntry.file := by
  constructor
  · exact List.filter_sublist _
  · intro path
    simp [filter_cpp_files_by_compile_commands, List.mem_filter, List.elem_iff]

end RosClangTidy

namespace RosClangTidy

/-- The config flag literal never collides with the fix flag. -/
theorem config_flag_ne_fix (c : String) : "--config=" ++ c ≠ "--fix-errors" := by
  intro h
  have h2 : ("--config=" ++ c).data = "--fix-errors".data := congrArg String.data h
  simp [String.data_append] at h2

/-- The config-file flag literal never collides with the fix flag. -/
theorem config_file_flag_ne_fix (c : String) : "--config-file=" ++ c ≠ "--fix-errors" := by
  intro h
  have h2 : ("--config-file=" ++ c).data = "--fix-errors".data := congrArg String.data h
  simp [String.data_append] at h2

/-- The export-fixes flag literal never collides with the fix flag. -/
theorem export_flag_ne_fix (c : String) : "--export-fixes=" ++ c ≠ "--fix-errors" := by
  intro h
  have h2 : ("--export-fixes=" ++ c).data = "--fix-errors".data := congrArg String.data h
  simp [String.data_append] at h2

/-- The build-directory argument never collides with the fix flag. -/
theorem build_dir_ne_fix (c : String) : "build/" ++ c ≠ "--fix-errors" := by
  intro h
  have h2 : ("build/" ++ c).data = "--fix-errors".data := congrArg String.data h
  simp [String.data_append] at h2

/-- The header-filter argument never collides with the fix flag. -/
theorem header_filter_ne_fix (c : String) :
    "--header-filter=" ++ c ++ "/.*" ≠ "--fix-errors" := by
  intro h
  have h2 : ("--header-filter=" ++ c ++ "/.*").data = "--fix-errors".data :=
    congrArg String.data h
  simp [String.data_append] at h2

/-- An optional-flag block contributes no occurrence of a different flag. -/
theorem count_flag_block (b : Bool) (x target : String) (hx : x ≠ target) :
    ((if b = true then [x] else []) : List String).count target = 0 := by
  cases b <;> simp [List.count_cons, List.count_nil, hx]

/-- The fix-errors block contributes the fix flag exactly when enabled. -/
theorem count_fix_block (b : Bool) :
    ((if b = true then ["--fix-errors"] else []) : List String).count "--fix-errors"
      = if b = true then 1 else 0 := by
  cases b <;> simp

/-- C2: the command builder emits, in fixed order, the tool name, the
project-context flag at the package build directory, the header filter
scoped to the package root, the optional flags each only when its option
is Python-truthy (an absent option and a default-empty option yield the
identical vector, with no empty-flag emission), and the target file last;
with `fix_errors` the fix flag appears exactly once and before the target
file. -/
theorem build_command_shape (clang_tidy_cmd package_name package_path source_file : String)
    (config config_file : Option String) (fix_errors : Bool)
    (export_fixes_path : Option String) (use_color : Bool)
    (hcmd : clang_tidy_cmd ≠ "--fix-errors") (hsrc : source_file ≠ "--fix-errors") :
    (build_clang_tidy_command clang_tidy_cmd package_name package_path source_file
        config config_file fix_errors export_fixes_path use_color).take 4
      = [clang_tidy_cmd, "-p", "build/" ++ package_name,
         "--header-filter=" ++ package_path ++ "/.*"] ∧
    (build_clang_tidy_command clang_tidy_cmd package_name package_path source_file
        config config_file fix_errors export_fixes_path use_color).getLast?
      = some source_file ∧
    build_clang_tidy_command clang_tidy_cmd package_name package_path source_file
        none config_file fix_errors export_fixes_path use_color
      = build_clang_tidy_command clang_tidy_cmd package_name package_path source_file
        (some "") config_file fix_errors export_fixes_path use_color ∧
    build_clang_tidy_command clang_tidy_cmd package_name package_path source_file
        config none fix_errors export_fixes_path use_color
      = build_clang_tidy_command clang_tidy_cmd package_name package_path source_file
        config (some "") fix_errors export_fixes_path use_color ∧
    build_clang_tidy_command clang_tidy_cmd package_name package_path source_file
        config config_file fix_errors none use_color
      = build_clang_tidy_command clang_tidy_cmd package_name package_path source_file
        config config_file fix_errors (some "") use_color ∧
    build_clang_tidy_command clang_tidy_cmd package_name package_path source_file
        none none false none false
      = [clang_tidy_cmd, "-p", "build/" ++ package_name,
         "--header-filter=" ++ package_path ++ "/.*", source_file] ∧
    (build_clang_tidy_command clang_tidy_cmd package_name package_path source_file
        config config_file fix_errors export_fixes_path use_color).count "--fix-errors"
      = (if fix_errors = true then 1 else 0) ∧
    (fix_errors = true →
      "--fix-errors" ∈ (build_clang_tidy_command clang_tidy_cmd package_name package_path
        source_file config config_file fix_errors export_fixes_path use_color).dropLast) := by
  refine ⟨?_, ?_, ?_, ?_, ?_, ?_, ?_, ?_⟩
  · simp [build_clang_tidy_command, List.take_succ_cons]
  · simp only [build_clang_tidy_command, ← List.append_assoc]
    rw [List.getLast?_concat]
  · simp [build_clang_tidy_command, optSet]
  · simp [build_clang_tidy_command, optSet]
  · simp [build_clang_tidy_command, optSet]
  · have h0 : ("" : String).isEmpty = true := rfl
    simp [build_clang_tidy_command, optSet, h0]
  · simp only [build_clang_tidy_command, List.count_append]
    rw [count_flag_block _ _ _ (config_flag_ne_fix _),
      count_flag_block _ _ _ (config_file_flag_ne_fix _),
      count_flag_block _ _ _ (export_flag_ne_fix _),
      count_flag_block _ _ _ (by decide : ("--use-color" : String) ≠ "--fix-errors"),
      count_fix_block]
    simp [List.count_cons, List.count_nil, hcmd, hsrc,
      build_dir_ne_fix, header_filter_ne_fix]
  · intro hfix
    simp only [build_clang_tidy_command, ← List.append_assoc]
    rw [List.dropLast_concat]
    simp [hfix]

/-- Witness for C2 at a concrete invocation with `fix_errors` enabled. -/
theorem build_command_shape_witness :
    ("clang-tidy" : String) ≠ "--fix-errors" ∧
    ("/ws/src/demo/a.cpp" : String) ≠ "--fix-errors" ∧
    ((build_clang_tidy_command "clang-tidy" "demo" "/ws/src/demo" "/ws/src/demo/a.cpp"
        none none true none false).count "--fix-errors" = (if true then 1 else 0)) :=
  ⟨by decide, by decide,
    (build_command_shape "clang-tidy" "demo" "/ws/src/demo" "/ws/src/demo/a.cpp"
      none none true none false (by decide) (by decide)).2.2.2.2.2.2.1⟩

end RosClangTidy

namespace RosClangTidy

/-- Key-membership tests against a name-filtered package list agree with
the unfiltered list for keys that pass the name filter. -/
theorem any_key_filter (sel : List String) (pp : List (String × List String))
    (k : String) (hk : sel.contains k = true) :
    ((pp.filter (fun np => sel.contains np.1)).any (fun np => np.1 == k))
      = pp.any (fun np => np.1 == k) := by
  induction pp with
  | nil => rfl
  | cons np rest ih =>
    simp only [List.filter_cons, List.any_cons]
    by_cases hs : sel.contains np.1 = true
    · rw [if_pos hs]
      simp only [List.any_cons]
      rw [ih]
    · rw [if_neg hs, ih]
      have h : np.1 ≠ k := fun hh => hs (by rw [hh]; exact hk)
      simp [h]

/-- C6: base-path filtering and explicit package selection commute, and
each is idempotent, on every scanner state. -/
theorem base_path_and_selection_commute (s : ClangTidyPackageScanner)
    (base_path : List String) (selected_packages : List String) :
    ((s.select_packages selected_packages).apply_base_path_filter base_path
      = (s.apply_base_path_filter base_path).select_packages selected_packages) ∧
    ((s.select_packages selected_packages).select_packages selected_packages
      = s.select_packages selected_packages) ∧
    ((s.apply_base_path_filter base_path).apply_base_path_filter base_path
      = s.apply_base_path_filter base_path) := by
  obtain ⟨pp, cpp⟩ := s
  refine ⟨?_, ?_, ?_⟩
  · simp only [ClangTidyPackageScanner.select_packages,
      ClangTidyPackageScanner.apply_base_path_filter, filter_packages_by_base_path,
      ClangTidyPackageScanner.mk.injEq]
    constructor
    · exact List.filter_comm _ _ _
    · have hcomm : List.filter (fun nf => selected_packages.contains nf.1)
          (List.filter (fun nf => (List.filter (fun np => base_path.isPrefixOf np.2) pp).any
            (fun np => np.1 == nf.1)) cpp)
          = List.filter (fun nf => (List.filter (fun np => base_path.isPrefixOf np.2) pp).any
            (fun np => np.1 == nf.1))
            (List.filter (fun nf => selected_packages.contains nf.1) cpp) :=
        List.filter_comm _ _ _
      rw [hcomm]
      apply List.filter_congr
      intro nf hnf
      have hk : selected_packages.contains nf.1 = true := (List.mem_filter.mp hnf).2
      have hswap : List.filter (fun np => base_path.isPrefixOf np.2)
          (List.filter (fun np => selected_packages.contains np.1) pp)
          = List.filter (fun np => selected_packages.contains np.1)
            (List.filter (fun np => base_path.isPrefixOf np.2) pp) :=
        List.filter_comm _ _ _
      rw [hswap]
      exact any_key_filter selected_packages
        (pp.filter (fun np => base_path.isPrefixOf np.2)) nf.1 hk
  · simp only [ClangTidyPackageScanner.select_packages,
      ClangTidyPackageScanner.mk.injEq, List.filter_filter]
    constructor <;> (apply List.filter_congr; intro x _; simp)
  · simp only [ClangTidyPackageScanner.apply_base_path_filter,
      filter_packages_by_base_path, ClangTidyPackageScanner.mk.injEq]
    have hpp : List.filter (fun np => base_path.isPrefixOf np.2)
        (List.filter (fun np => base_path.isPrefixOf np.2) pp)
        = List.filter (fun np => base_path.isPrefixOf np.2) pp := by
      rw [List.filter_filter]
      apply List.filter_congr
      intro x _
      simp
    constructor
    · exact hpp
    · rw [hpp, List.filter_filter]
      apply List.filter_congr
      intro x _
      simp

/-- One discovery step preserves the scanner invariant: every stored file
list is non-empty and the two maps carry the same keys in order. -/
theorem scan_step_invariant (manifests : String → List CompileEntry)
    (s : ClangTidyPackageScanner) (entry : String × List String × Dir)
    (h1 : ∀ nf ∈ s.package_cpp_files, nf.2 ≠ [])
    (h2 : s.package_paths.map Prod.fst = s.package_cpp_files.map Prod.fst) :
    (∀ nf ∈ (scan_step manifests s entry).package_cpp_files, nf.2 ≠ []) ∧
    (scan_step manifests s entry).package_paths.map Prod.fst
      = (scan_step manifests s entry).package_cpp_files.map Prod.fst := by
  simp only [scan_step]
  split
  · exact ⟨h1, h2⟩
  · split
    · exact ⟨h1, h2⟩
    · rename_i hne
      constructor
      · intro nf hnf
        simp only [List.mem_append, List.mem_singleton] at hnf
        rcases hnf with hnf | rfl
        · exact h1 nf hnf
        · intro hempty
          have hf : filter_cpp_files_by_compile_commands
              (find_cpp_files entry.2.1 entry.2.2) (manifests entry.1) = [] := hempty
          exact hne (by simp [hf])
      · simp [h2]

/-- The discovery fold preserves the scanner invariant from any start. -/
theorem scanner_foldl_invariant (manifests : String → List CompileEntry)
    (pkgs : List (String × List String × Dir)) :
    ∀ s : ClangTidyPackageScanner,
    (∀ nf ∈ s.package_cpp_files, nf.2 ≠ []) →
    s.package_paths.map Prod.fst = s.package_cpp_files.map Prod.fst →
    (∀ nf ∈ (pkgs.foldl (scan_step manifests) s).package_cpp_files, nf.2 ≠ []) ∧
    (pkgs.foldl (scan_step manifests) s).package_paths.map Prod.fst
      = (pkgs.foldl (scan_step manifests) s).package_cpp_files.map Prod.fst := by
  induction pkgs with
  | nil => intro s h1 h2; exact ⟨h1, h2⟩
  | cons e rest ih =>
    intro s h1 h2
    have h := scan_step_invariant manifests s e h1 h2
    simpa using ih (scan_step manifests s e) h.1 h.2

/-- C7: every package the scanner keeps has a non-empty candidate file
list, and the selection choices (`list_available_packages`) are exactly
the keys of the kept file lists — a package whose list came out empty is
absent from both. -/
theorem empty_packages_never_selectable (pkgs : List (String × List String × Dir))
    (manifests : String → List CompileEntry) :
    (∀ nf ∈ (scanner_scan pkgs manifests).package_cpp_files, nf.2 ≠ []) ∧
    (scanner_scan pkgs manifests).list_available_packages
      = (scanner_scan pkgs manifests).package_cpp_files.map Prod.fst := by
  have h := scanner_foldl_invariant manifests pkgs ⟨[], []⟩ (by simp) (by simp)
  exact ⟨h.1, h.2⟩

/-- Witness for C7: of two packages, the one with no matching files is
dropped and the kept one's stored file list is non-empty. -/
theorem empty_packages_never_selectable_witness :
    ("a", [["ws", "a", "x.cpp"]]) ∈ (scanner_scan
        [("a", ["ws", "a"], Dir.mk ["x.cpp"] Subdirs.nil),
         ("b", ["ws", "b"], Dir.mk [] Subdirs.nil)]
        (fun _ => [⟨["ws", "a", "x.cpp"]⟩])).package_cpp_files ∧
    ([["ws", "a", "x.cpp"]] : List (List String)) ≠ [] :=
  ⟨by decide,
    (empty_packages_never_selectable
      [("a", ["ws", "a"], Dir.mk ["x.cpp"] Subdirs.nil),
       ("b", ["ws", "b"], Dir.mk [] Subdirs.nil)]
      (fun _ => [⟨["ws", "a", "x.cpp"]⟩])).1 ("a", [["ws", "a", "x.cpp"]]) (by decide)⟩

end RosClangTidy

namespace RosClangTidy

mutual

theorem mem_find_cpp_files (root : List String) (d : Dir) (s : List String) :
    s ∈ find_cpp_files root d ↔
      ∃ ns f, s = root ++ ns ++ [f] ∧ extAllowed f = true ∧
        Dir.hasFileAt d ns f = true ∧ ∀ n ∈ ns, strLower n ≠ "test" := by
  cases d with
  | mk files subdirs =>
    simp only [find_cpp_files, List.mem_append, List.mem_map, List.mem_filter]
    constructor
    · intro h
      rcases h with ⟨name, ⟨hmem, hext⟩, rfl⟩ | hsub
      · refine ⟨[], name, by simp, hext, ?_, by simp⟩
        simp only [Dir.hasFileAt]
        simpa using hmem
      · obtain ⟨n, ns, f, heq, hext, hhas, hn, hns⟩ :=
          (mem_walkSubdirs root subdirs s).mp hsub
        refine ⟨n :: ns, f, by simpa using heq, hext, ?_, ?_⟩
        · simpa only [Dir.hasFileAt] using hhas
        · intro m hm
          rcases List.mem_cons.mp hm with rfl | hm2
          · exact hn
          · exact hns m hm2
    · rintro ⟨ns, f, rfl, hext, hhas, hclean⟩
      cases ns with
      | nil =>
        left
        refine ⟨f, ⟨?_, hext⟩, by simp⟩
        simp only [Dir.hasFileAt] at hhas
        simpa using hhas
      | cons n ns2 =>
        right
        apply (mem_walkSubdirs root subdirs _).mpr
        refine ⟨n, ns2, f, by simp, hext, ?_, ?_, ?_⟩
        · simpa only [Dir.hasFileAt] using hhas
        · exact hclean n (List.mem_cons_self _ _)
        · intro m hm
          exact hclean m (List.mem_cons_of_mem _ hm)

theorem mem_walkSubdirs (root : List String) (sds : Subdirs) (s : List String) :
    s ∈ walkSubdirs root sds ↔
      ∃ n ns f, s = root ++ (n :: ns) ++ [f] ∧ extAllowed f = true ∧
        Subdirs.hasFileAt sds n ns f = true ∧ strLower n ≠ "test" ∧
        ∀ m ∈ ns, strLower m ≠ "test" := by
  cases sds with
  | nil => simp [walkSubdirs, Subdirs.hasFileAt]
  | cons name d rest =>
    simp only [walkSubdirs, List.mem_append]
    by_cases ht : (strLower name == "test") = true
    · rw [if_pos ht]
      have htl : strLower name = "test" := by simpa using ht
      constructor
      · intro h
        rcases h with h0 | hrest
        · simp at h0
        · obtain ⟨n, ns, f, heq, hext, hhas, hn, hns⟩ :=
            (mem_walkSubdirs root rest s).mp hrest
          refine ⟨n, ns, f, heq, hext, ?_, hn, hns⟩
          simp [Subdirs.hasFileAt, hhas]
      · rintro ⟨n, ns, f, heq, hext, hhas, hn, hns⟩
        right
        apply (mem_walkSubdirs root rest s).mpr
        refine ⟨n, ns, f, heq, hext, ?_, hn, hns⟩
        simp only [Subdirs.hasFileAt, Bool.or_eq_true, Bool.and_eq_true,
          beq_iff_eq] at hhas
        rcases hhas with ⟨rfl, _⟩ | h2
        · exact absurd htl hn
        · exact h2
    · rw [if_neg ht]
      have htl : strLower name ≠ "test" := by simpa using ht
      constructor
      · intro h
        rcases h with hfind | hrest
        · obtain ⟨ns, f, heq, hext, hhas, hclean⟩ :=
            (mem_find_cpp_files (root ++ [name]) d s).mp hfind
          refine ⟨name, ns, f, ?_, hext, ?_, htl, hclean⟩
          · rw [heq]
            simp
          · simp [Subdirs.hasFileAt, hhas]
        · obtain ⟨n, ns, f, heq, hext, hhas, hn, hns⟩ :=
            (mem_walkSubdirs root rest s).mp hrest
          refine ⟨n, ns, f, heq, hext, ?_, hn, hns⟩
          simp [Subdirs.hasFileAt, hhas]
      · rintro ⟨n, ns, f, heq, hext, hhas, hn, hns⟩
        simp only [Subdirs.hasFileAt, Bool.or_eq_true, Bool.and_eq_true,
          beq_iff_eq] at hhas
        rcases hhas with ⟨rfl, hd⟩ | h2
        · left
          apply (mem_find_cpp_files (root ++ [name]) d s).mpr
          refine ⟨ns, f, ?_, hext, hd, hns⟩
          rw [heq]
          simp
        · right
          exact (mem_walkSubdirs root rest s).mpr ⟨n, ns, f, heq, hext, h2, hn, hns⟩

end

end RosClangTidy

namespace RosClangTidy

/-- C3: membership in the enumerated list is exactly reaching a file of
allowed extension through subdirectories none of which lower-cases to
"test"; a subdirectory lower-casing to "test" is pruned whole before
descent; a file below such a directory never appears; a matching file not
below one always appears. -/
theorem test_directories_excluded :
    (∀ root d s, s ∈ find_cpp_files root d ↔
        ∃ ns f, s = root ++ ns ++ [f] ∧ extAllowed f = true ∧
          Dir.hasFileAt d ns f = true ∧ ∀ n ∈ ns, strLower n ≠ "test") ∧
    (∀ root files name d rest, strLower name = "test" →
        find_cpp_files root (Dir.mk files (Subdirs.cons name d rest))
          = find_cpp_files root (Dir.mk files rest)) ∧
    (∀ root d ns f, (∃ n ∈ ns, strLower n = "test") →
        root ++ ns ++ [f] ∉ find_cpp_files root d) ∧
    (∀ root d ns f, Dir.hasFileAt d ns f = true → extAllowed f = true →
        (∀ n ∈ ns, strLower n ≠ "test") → root ++ ns ++ [f] ∈ find_cpp_files root d) := by
  refine ⟨fun root d s => mem_find_cpp_files root d s, ?_, ?_, ?_⟩
  · intro root files name d rest h
    simp [find_cpp_files, walkSubdirs, h]
  · rintro root d ns f ⟨n, hn, htest⟩ hmem
    obtain ⟨ns2, f2, heq, _, _, hclean⟩ := (mem_find_cpp_files root d _).mp hmem
    have heq2 : ns ++ [f] = ns2 ++ [f2] := by
      rw [List.append_assoc, List.append_assoc] at heq
      exact List.append_cancel_left heq
    have hlen : ns.length = ns2.length := by
      have hl := congrArg List.length heq2
      simp at hl
      omega
    obtain ⟨hns, _⟩ := List.append_inj heq2 hlen
    subst hns
    exact hclean n hn htest
  · intro root d ns f hhas hext hclean
    exact (mem_find_cpp_files root d _).mpr ⟨ns, f, rfl, hext, hhas, hclean⟩

/-- Witness for C3: a `Test` directory is pruned whole, the file below it
is absent, and a matching file in a non-test subdirectory is present. -/
theorem test_directories_excluded_witness :
    strLower "Test" = "test" ∧
    find_cpp_files ["pkg"]
        (Dir.mk ["a.cpp"] (Subdirs.cons "Test" (Dir.mk ["b.cpp"] Subdirs.nil) Subdirs.nil))
      = find_cpp_files ["pkg"] (Dir.mk ["a.cpp"] Subdirs.nil) ∧
    ["pkg", "Test", "b.cpp"] ∉ find_cpp_files ["pkg"]
        (Dir.mk ["a.cpp"] (Subdirs.cons "Test" (Dir.mk ["b.cpp"] Subdirs.nil) Subdirs.nil)) ∧
    ["pkg", "src", "ok.cpp"] ∈ find_cpp_files ["pkg"]
        (Dir.mk [] (Subdirs.cons "src" (Dir.mk ["ok.cpp"] Subdirs.nil) Subdirs.nil)) :=
  ⟨by decide,
   test_directories_excluded.2.1 ["pkg"] ["a.cpp"] "Test"
     (Dir.mk ["b.cpp"] Subdirs.nil) Subdirs.nil (by decide),
   test_directories_excluded.2.2.1 ["pkg"]
     (Dir.mk ["a.cpp"] (Subdirs.cons "Test" (Dir.mk ["b.cpp"] Subdirs.nil) Subdirs.nil))
     ["Test"] "b.cpp" ⟨"Test", by decide, by decide⟩,
   test_directories_excluded.2.2.2 ["pkg"]
     (Dir.mk [] (Subdirs.cons "src" (Dir.mk ["ok.cpp"] Subdirs.nil) Subdirs.nil))
     ["src"] "ok.cpp" (by decide) (by decide) (by decide)⟩

/-- C4: header files are NOT collected — the allowed-extension set of
`find_cpp_files` is only `.cpp`, `.cc`, `.c`, although the function's own
docstring says it finds "C++ source and header files". -/
theorem headers_not_collected :
    find_cpp_files ["pkg"]
        (Dir.mk ["a.hpp", "b.h", "c.hh", "d.hxx", "main.cpp", "util.cc", "legacy.c"]
          Subdirs.nil)
      = [["pkg", "main.cpp"], ["pkg", "util.cc"], ["pkg", "legacy.c"]] ∧
    extAllowed "a.hpp" = false ∧ extAllowed "b.h" = false ∧
    extAllowed "c.hh" = false ∧ extAllowed "main.CPP" = true := by
  refine ⟨by decide, by decide, by decide, by decide, by decide⟩

/-- C9 counterexample: with two results of the same package each carrying
one warning, the per-package summary line is printed twice, not once per
package. -/
theorem summary_line_not_once_per_package :
    (drain_results false
        [("p", ⟨["c"], 0, "warning: x", ""⟩), ("p", ⟨["c"], 0, "warning: y", ""⟩)]).printed.count
      (summary_line "p" 0 1) = 2 := by decide

/-- C9 (amended): the summary line is emitted once per result (per file
invocation), not once per package, exactly when `output_all` is set or
that result's error or warning count is non-zero; the printed lines are
the concatenation of the per-result lines. -/
theorem summary_lines_per_result (output_all : Bool)
    (results : List (String × CompletedProcess)) :
    (drain_results output_all results).printed
      = results.flatMap (result_lines output_all) ∧
    (∀ pr : String × CompletedProcess,
      output_all = false → strCount pr.2.stdout "error: " = 0 →
      strCount pr.2.stdout "warning: " = 0 →
      result_lines output_all pr
        = if !pr.2.stdout.isEmpty || !pr.2.stderr.isEmpty then
            [parse_result pr.2] else []) ∧
    (∀ pr : String × CompletedProcess,
      (output_all = true ∨ 0 < strCount pr.2.stdout "error: " ∨
        0 < strCount pr.2.stdout "warning: ") →
      (result_lines output_all pr).getLast?
        = some (summary_line pr.1 (strCount pr.2.stdout "error: ")
            (strCount pr.2.stdout "warning: "))) := by
  refine ⟨drain_results_printed output_all results, ?_, ?_⟩
  · intro pr hoa herr hwarn
    simp [result_lines, hoa, herr, hwarn]
  · intro pr hcond
    have hc : (output_all || decide (0 < strCount pr.2.stdout "error: ")
        || decide (0 < strCount pr.2.stdout "warning: ")) = true := by
      rcases hcond with h | h | h <;> simp [h]
    simp only [result_lines, hc, if_true]
    rw [List.getLast?_concat]

/-- Witness for C9 (amended): with `output_all` set, a result with empty
output still ends its emitted lines with the summary line. -/
theorem summary_lines_per_result_witness :
    ((true : Bool) = true ∨ 0 < strCount "" "error: " ∨ 0 < strCount "" "warning: ") ∧
    (result_lines true ("p", ⟨["c"], 0, "", ""⟩)).getLast?
      = some (summary_line "p" 0 0) :=
  ⟨Or.inl rfl,
    (summary_lines_per_result true []).2.2 ("p", ⟨["c"], 0, "", ""⟩) (Or.inl rfl)⟩

end RosClangTidy

namespace RosClangTidy

/-- Witness for C6 at a concrete scanner state: the two filters applied in
either order give the same state. -/
theorem base_path_and_selection_commute_witness :
    ((ClangTidyPackageScanner.mk
        [("a", ["ws", "src", "a"]), ("b", ["other", "b"])]
        [("a", [["ws", "src", "a", "x.cpp"]]), ("b", [["other", "b", "y.cpp"]])]).select_packages
          ["a"]).apply_base_path_filter ["ws"]
      = ((ClangTidyPackageScanner.mk
        [("a", ["ws", "src", "a"]), ("b", ["other", "b"])]
        [("a", [["ws", "src", "a", "x.cpp"]]), ("b", [["other", "b", "y.cpp"]])]).apply_base_path_filter
          ["ws"]).select_packages ["a"] :=
  (base_path_and_selection_commute
    (ClangTidyPackageScanner.mk
      [("a", ["ws", "src", "a"]), ("b", ["other", "b"])]
      [("a", [["ws", "src", "a", "x.cpp"]]), ("b", [["other", "b", "y.cpp"]])])
    ["ws"] ["a"]).1

/-- Witness for C8 at a concrete input: a path in the manifest is kept,
one absent from it is characterized out. -/
theorem filter_compile_commands_subsequence_witness :
    ["ws", "a.cpp"] ∈ filter_cpp_files_by_compile_commands
        [["ws", "a.cpp"], ["ws", "b.cpp"]] [⟨["ws", "a.cpp"]⟩] ↔
      (["ws", "a.cpp"] ∈ [["ws", "a.cpp"], ["ws", "b.cpp"]] ∧
        ["ws", "a.cpp"] ∈ ([⟨["ws", "a.cpp"]⟩] : List CompileEntry).map CompileEntry.file) :=
  (filter_compile_commands_subsequence [["ws", "a.cpp"], ["ws", "b.cpp"]]
    [⟨["ws", "a.cpp"]⟩]).2 ["ws", "a.cpp"]

end RosClangTidy
